import Mathlib

/-!
Verification development for the shopping-mission app (src/app.py).

The Python source is shallowly embedded: the session cart (a Python dict
from item name to a price/img_url/qty record, insertion-ordered) is a
`List (String × CartEntry)` with unique keys; machine integers are `Int`;
fallible parsing returns through explicit case analysis.  Each definition
is translated from the function of the same name in src/app.py.
-/

/-- One cart value, as stored by add_to_cart:
Python dict literal `\x7b"price": price, "img_url": img_url, "qty": qty\x7d`. -/
structure CartEntry where
  price : Int
  img_url : String
  qty : Int
deriving DecidableEq, Repr

/-- The session cart `st.session_state.cart : Dict[str, Dict[str, Any]]`.
A Python dict preserves insertion order and has unique keys; we model it as
an insertion-ordered association list. -/
abbrev Cart := List (String × CartEntry)

/-- Translation of `add_to_cart(name, price, img_url, qty)` (src/app.py:344).
`qty <= 0` returns early; an existing key has its qty incremented in place
(`cart[name]["qty"] += qty`); otherwise a fresh entry is appended. -/
def add_to_cart (c : Cart) (name : String) (price : Int) (img_url : String) (qty : Int) : Cart :=
  if qty ≤ 0 then c
  else if c.any (fun e => e.1 == name) then
    c.map (fun e => if e.1 == name then (e.1, { e.2 with qty := e.2.qty + qty }) else e)
  else
    c ++ [(name, { price := price, img_url := img_url, qty := qty })]

/-- Translation of `cart_total()` (src/app.py:353):
`sum(v["price"] * v["qty"] for v in cart.values())`. -/
def cart_total (c : Cart) : Int :=
  (c.map (fun e => e.2.price * e.2.qty)).sum

/-- Translation of `clear_cart()` (src/app.py:356). -/
def clear_cart : Cart := []

/-- Dict lookup `cart[name]` (first and, with unique keys, only match). -/
def cart_lookup : Cart → String → Option CartEntry
  | [], _ => none
  | e :: t, n => if e.1 == n then some e.2 else cart_lookup t n

/-- The keys of a cart, in insertion order. -/
def cart_keys (c : Cart) : List String := c.map (fun e => e.1)

/-- Python dict invariant: keys are unique. -/
def keysNodup (c : Cart) : Prop := (cart_keys c).Nodup

/-- The in-place increment `cart[name]["qty"] += qty` performed on the
entry whose key is `name`, leaving every other entry alone. -/
def bump (n : String) (q : Int) : String × CartEntry → String × CartEntry :=
  fun e => if e.1 == n then (e.1, { e.2 with qty := e.2.qty + q }) else e

/-- One recorded call of add_to_cart, for reasoning about call sequences. -/
structure AddCall where
  name : String
  price : Int
  img_url : String
  qty : Int
deriving DecidableEq, Repr

/-- Replay a sequence of add_to_cart calls against a starting cart. -/
def applyAdds (c : Cart) (l : List AddCall) : Cart :=
  l.foldl (fun acc a => add_to_cart acc a.name a.price a.img_url a.qty) c

/-- The amount one call contributes to the total when its unit price is the
one actually charged: zero for a non-positive qty, price times qty otherwise. -/
def addGain (a : AddCall) : Int :=
  if a.qty ≤ 0 then 0 else a.price * a.qty

/-- The three values of `st.session_state.step`: "start" (mission
selection), "shop", "result" (src/app.py:332). -/
inductive Step where
  | start
  | shop
  | result
deriving DecidableEq, Repr

/-- The session fields set up by `init_state()` (src/app.py:330). -/
structure AppState where
  step : Step
  mission : Option String
  budget : Int
  cart : Cart
  submitted : Bool
  reasons : String
deriving DecidableEq, Repr

/-- Translation of `init_state()` (src/app.py:330): the initial value each
session field receives when first created. -/
def init_state : AppState :=
  { step := .start, mission := none, budget := 0, cart := [],
    submitted := false, reasons := "" }

/-- One row of the `df_items` frame built by `result_page()`
(src/app.py:524): name, qty, unit price, line total, image url. -/
structure ResultRow where
  name : String
  qty : Int
  price : Int
  subtotal : Int
  img_url : String
deriving DecidableEq, Repr

/-- The `df_items` rows before sorting, one per cart entry in insertion
order (src/app.py:524-528); also the rows `_render_cart_table_html`
renders, in the same insertion order (src/app.py:416-431). -/
def cartRows (c : Cart) : List ResultRow :=
  c.map (fun e =>
    { name := e.1, qty := e.2.qty, price := e.2.price,
      subtotal := e.2.price * e.2.qty, img_url := e.2.img_url })

/-- Code-point lexicographic comparison of character lists: the order
Python uses to compare strings, hence the order pandas sorts the 품명
column by. -/
def charListLeb : List Char → List Char → Bool
  | [], _ => true
  | _ :: _, [] => false
  | c :: s, d :: t =>
    if c.toNat < d.toNat then true
    else if d.toNat < c.toNat then false
    else charListLeb s t

/-- Python string ≤, by code points. -/
def strLeb (a b : String) : Bool := charListLeb a.data b.data

/-- Row order of the sorted result table: ascending by item name. -/
def rowLe (a b : ResultRow) : Prop := strLeb a.name b.name = true

instance rowLe_decidable : DecidableRel rowLe := fun _ _ =>
  inferInstanceAs (Decidable (_ = true))

/-- The `.sort_values("품명")` step (src/app.py:529): rows ordered by
ascending item name.  Cart keys are unique, so any sorting algorithm gives
the same list; we use insertion sort. -/
def resultItems (c : Cart) : List ResultRow :=
  List.insertionSort rowLe (cartRows c)

/-- The total shown on the result page, `int(df_items["합계"].sum())`
(src/app.py:537). -/
def resultTotal (c : Cart) : Int :=
  ((resultItems c).map (fun r => r.subtotal)).sum

/-- What the result page does for a given session state: either it offers a
redirect to an earlier step without rendering any result content, or it
renders the result content (src/app.py:506-533).  `redirect target` models
the early-return branches, whose only navigation is the offered button. -/
inductive ResultView where
  | redirect (target : Step)
  | content (rows : List ResultRow) (total : Int)
deriving DecidableEq, Repr

/-- Translation of the control flow of `result_page()` (src/app.py:506):
not submitted → early return, back-button targets "shop" when a mission is
active and "start" otherwise (line 512); submitted with an empty cart →
early return, back-button targets "shop" (line 520); otherwise the result
content is rendered from the sorted rows. -/
def result_page (s : AppState) : ResultView :=
  if s.submitted = false then
    .redirect (if s.mission.isSome then .shop else .start)
  else if s.cart.isEmpty then
    .redirect .shop
  else
    .content (resultItems s.cart) (resultTotal s.cart)

/-- A result-step session that was submitted but whose cart is empty. -/
def emptyCartResultState : AppState :=
  { step := .result, mission := some "🍛 카레 만들기", budget := 20000,
    cart := [], submitted := true, reasons := "" }

/-- Translation of the submit control's disabled condition
(src/app.py:495-500): `over_budget or (total <= 0)` where
`over_budget = (budget - cart_total()) < 0`. -/
def submit_disabled (s : AppState) : Bool :=
  decide (s.budget - cart_total s.cart < 0) || decide (cart_total s.cart ≤ 0)

/-- Translation of the submit handler (src/app.py:500-504).  A disabled
Streamlit button cannot fire, so the press event is conjoined with
enablement; on an enabled press the handler sets submitted and moves the
step to "result". -/
def shop_submit (s : AppState) (pressed : Bool) : AppState :=
  if pressed && !submit_disabled s then
    { s with submitted := true, step := .result }
  else s

/-- A shopping-step session within budget holding one cart entry. -/
def withinBudgetShopState : AppState :=
  { step := .shop, mission := some "m", budget := 10000,
    cart := [("사과", { price := 3000, img_url := "u", qty := 2 })],
    submitted := false, reasons := "" }

/-- Translation of the restart handler on the result page
(src/app.py:579-583): `step = "start"; cart = \x7b\x7d; submitted = False`.
No other field is touched. -/
def result_restart (s : AppState) : AppState :=
  { s with step := .start, cart := [], submitted := false }

/-- A finished result-step session: active mission, spent cart, reasoning. -/
def finishedResultState : AppState :=
  { step := .result, mission := some "🍛 카레 만들기", budget := 20000,
    cart := [("사과", { price := 3000, img_url := "u", qty := 2 })],
    submitted := true, reasons := "카레 재료" }

/-- A cart whose insertion order ("banana" first) disagrees with the
ascending name order. -/
def unsortedDemoCart : Cart :=
  applyAdds [] [⟨"banana", 1000, "", 1⟩, ⟨"apple", 2000, "", 1⟩]

/-- Thousands grouping of a digit sequence given least-significant first:
a comma is inserted before every digit whose index is a positive multiple
of 3, mirroring the Python format spec `:,`. -/
def commasLSF : List Char → Nat → List Char
  | [], _ => []
  | c :: t, i =>
    (if i ≠ 0 ∧ i % 3 = 0 then [',', c] else [c]) ++ commasLSF t (i + 1)

/-- The digit characters of a natural number with thousands separators,
most-significant first. -/
def groupedDigits (n : Nat) : List Char :=
  (commasLSF (Nat.toDigits 10 n).reverse 0).reverse

/-- Translation of `format_won(x)` (src/app.py:104): the amount as an
integer with comma thousands separators and the 원 suffix.  Every caller
passes an integer, so the model's domain is Int; `int(round(float(x)))` is
then the identity (the float detour is exact on these magnitudes). -/
def format_won (x : Int) : String :=
  String.mk ((if x < 0 then ['-'] else []) ++ groupedDigits x.natAbs) ++ "원"

/-- RGB color of a non-negative remaining balance (src/app.py:322). -/
def greenFill : Nat × Nat × Nat := (0, 120, 0)

/-- RGB color of a negative remaining balance (src/app.py:322). -/
def redFill : Nat × Nat × Nat := (180, 0, 0)

/-- The three footer lines of the report image and the remaining-balance
text color. -/
structure ResultFooter where
  budget_text : String
  spent_text : String
  remain_text : String
  remain_color : Nat × Nat × Nat
deriving DecidableEq, Repr

/-- Translation of the footer block of `make_result_image(..., total, budget)`
(src/app.py:317-322): `spent = total`, `remain = budget - total`, three
formatted lines, and the 잔액 line drawn green when remain ≥ 0 and red
otherwise. -/
def make_result_image_footer (total budget : Int) : ResultFooter :=
  { budget_text := "주어진 금액: " ++ format_won budget
  , spent_text := "총 사용 금액: " ++ format_won total
  , remain_text := "잔액: " ++ format_won (budget - total)
  , remain_color := if budget - total ≥ 0 then greenFill else redFill }

/-- A pandas cell value as seen by `_parse_price`: missing (NaN), an
integer, or a string.  Numeric float cells (truncated toward zero by
`int(v)`) behave like their truncation and are subsumed by `int`. -/
inductive PValue where
  | nan
  | int (n : Int)
  | str (s : String)
deriving DecidableEq, Repr

/-- Model of `str(v).replace(",", "").replace("원", "")`: both replaced substrings
are single characters, so the two replaces are two filters. -/
def dropDecor (cs : List Char) : List Char :=
  (cs.filter (fun c => !(c == ','))).filter (fun c => !(c == '원'))

/-- Python `str.strip()`: drop whitespace from both ends.  Lean's
Char.isWhitespace covers the ASCII whitespace only; Python additionally
strips Unicode spaces, so a string with Unicode-space ends keeps them here
and falls outside the digits-only hypothesis of the positive theorem below
(coverage narrows; no in-range conclusion changes). -/
def stripWS (cs : List Char) : List Char :=
  ((cs.dropWhile Char.isWhitespace).reverse.dropWhile Char.isWhitespace).reverse

/-- The characters CPython's float() reads as decimal digits: Unicode
category Nd.  Modelled as the ASCII digits plus the other BMP
decimal-digit blocks, with every supplementary-plane code point
conservatively counted as a digit — an over-approximation of Nd, which
only strengthens the no-digit hypothesis stated with it. -/
def pyDigit (c : Char) : Bool :=
  c.isDigit
  || (0x660 ≤ c.toNat && c.toNat ≤ 0x669)
  || (0x6F0 ≤ c.toNat && c.toNat ≤ 0x6F9)
  || (0x7C0 ≤ c.toNat && c.toNat ≤ 0x7C9)
  || (0x966 ≤ c.toNat && c.toNat ≤ 0x96F)
  || (0x9E6 ≤ c.toNat && c.toNat ≤ 0x9EF)
  || (0xA66 ≤ c.toNat && c.toNat ≤ 0xA6F)
  || (0xAE6 ≤ c.toNat && c.toNat ≤ 0xAEF)
  || (0xB66 ≤ c.toNat && c.toNat ≤ 0xB6F)
  || (0xBE6 ≤ c.toNat && c.toNat ≤ 0xBEF)
  || (0xC66 ≤ c.toNat && c.toNat ≤ 0xC6F)
  || (0xCE6 ≤ c.toNat && c.toNat ≤ 0xCEF)
  || (0xD66 ≤ c.toNat && c.toNat ≤ 0xD6F)
  || (0xDE6 ≤ c.toNat && c.toNat ≤ 0xDEF)
  || (0xE50 ≤ c.toNat && c.toNat ≤ 0xE59)
  || (0xED0 ≤ c.toNat && c.toNat ≤ 0xED9)
  || (0xF20 ≤ c.toNat && c.toNat ≤ 0xF29)
  || (0x1040 ≤ c.toNat && c.toNat ≤ 0x1049)
  || (0x1090 ≤ c.toNat && c.toNat ≤ 0x1099)
  || (0x17E0 ≤ c.toNat && c.toNat ≤ 0x17E9)
  || (0x1810 ≤ c.toNat && c.toNat ≤ 0x1819)
  || (0x1946 ≤ c.toNat && c.toNat ≤ 0x194F)
  || (0x19D0 ≤ c.toNat && c.toNat ≤ 0x19D9)
  || (0x1A80 ≤ c.toNat && c.toNat ≤ 0x1A89)
  || (0x1A90 ≤ c.toNat && c.toNat ≤ 0x1A99)
  || (0x1B50 ≤ c.toNat && c.toNat ≤ 0x1B59)
  || (0x1BB0 ≤ c.toNat && c.toNat ≤ 0x1BB9)
  || (0x1C40 ≤ c.toNat && c.toNat ≤ 0x1C49)
  || (0x1C50 ≤ c.toNat && c.toNat ≤ 0x1C59)
  || (0xA620 ≤ c.toNat && c.toNat ≤ 0xA629)
  || (0xA8D0 ≤ c.toNat && c.toNat ≤ 0xA8D9)
  || (0xA900 ≤ c.toNat && c.toNat ≤ 0xA909)
  || (0xA9D0 ≤ c.toNat && c.toNat ≤ 0xA9D9)
  || (0xA9F0 ≤ c.toNat && c.toNat ≤ 0xA9F9)
  || (0xAA50 ≤ c.toNat && c.toNat ≤ 0xAA59)
  || (0xABF0 ≤ c.toNat && c.toNat ≤ 0xABF9)
  || (0xFF10 ≤ c.toNat && c.toNat ≤ 0xFF19)
  || (0x10000 ≤ c.toNat)

/-- The value of a most-significant-first digit string. -/
def digitsVal (ds : List Char) : Nat :=
  ds.foldl (fun n c => 10 * n + (c.toNat - Char.toNat '0')) 0

/-- The optional leading sign of a float literal. -/
def splitSign (cs : List Char) : Bool × List Char :=
  if cs.head? = some '-' then (true, cs.tail)
  else if cs.head? = some '+' then (false, cs.tail)
  else (false, cs)

/-- Digits with an optional single decimal point, returning the integer
part's value — the truncation toward zero that `int(float(s))` performs on
the unsigned body.  (CPython additionally accepts exponent notation,
underscore grouping, inf/nan words and non-ASCII Unicode decimal digits;
those are elided — on inf/nan the real code's `int()` raises and is caught
back to 0, matching the `none` here; binary-float rounding is exact below
16 digits, the only range the positive theorem uses; and strings holding
any non-ASCII decimal digit are excluded from the no-digit theorem by its
pyDigit hypothesis, so every elided case lies outside the theorems'
hypotheses. -/
def parseUnsignedTrunc (cs : List Char) : Option Nat :=
  if cs.dropWhile Char.isDigit = [] then
    if cs.takeWhile Char.isDigit = [] then none
    else some (digitsVal (cs.takeWhile Char.isDigit))
  else if (cs.dropWhile Char.isDigit).head? = some '.'
      ∧ (cs.dropWhile Char.isDigit).tail.dropWhile Char.isDigit = [] then
    if cs.takeWhile Char.isDigit = []
        ∧ (cs.dropWhile Char.isDigit).tail.takeWhile Char.isDigit = [] then none
    else some (digitsVal (cs.takeWhile Char.isDigit))
  else none

/-- Model of `int(float(s))` on a stripped string: sign, then unsigned body. -/
def parseFloatTrunc (cs : List Char) : Option Int :=
  (parseUnsignedTrunc (splitSign cs).2).map
    (fun n => if (splitSign cs).1 then -(n : Int) else (n : Int))

/-- Translation of `_parse_price(v)` (src/app.py:111): NaN → 0, numeric →
its integer value, string → strip commas, 원 and whitespace then
`int(float(s))`, any parse failure → 0. -/
def _parse_price (v : PValue) : Int :=
  match v with
  | .nan => 0
  | .int n => n
  | .str s => (parseFloatTrunc (stripWS (dropDecor s.data))).getD 0

/-- Outcome of the guarded block of `fetch_image` (src/app.py:147-150):
the HTTP GET, status check and image decode either raise (any exception —
network, non-image payload, timeout) or produce a decoded RGBA image with
some pixel dimensions.  The `except Exception` arm makes the whole
function total over these outcomes. -/
inductive FetchOutcome where
  | fail
  | ok (w h : Nat)
deriving DecidableEq, Repr

/-- Rounding to nearest of num/den (PIL's aspect rounding picks between
floor and ceil by aspect error; on the ratios produced here that is
rounding to nearest, and only the fits-in-box bound below is used). -/
def round_half (num den : Nat) : Nat := (2 * num + den) / (2 * den)

/-- Geometry of `img.thumbnail(size, LANCZOS)` (PIL): no enlargement, and a
downscale preserving the aspect ratio to fit the target box. -/
def thumbnailDims (w h tw th : Nat) : Nat × Nat :=
  if w ≤ tw ∧ h ≤ th then (w, h)
  else if tw * h ≥ th * w then
    (max 1 (round_half (th * w) h), th)
  else
    (tw, max 1 (round_half (tw * h) w))

/-- The observable geometry of the image `fetch_image` returns: the canvas
size, the optional placeholder label, and where the pasted content sits. -/
structure PImage where
  width : Nat
  height : Nat
  label : Option String
  contentW : Nat
  contentH : Nat
  offsetX : Nat
  offsetY : Nat
deriving DecidableEq, Repr

/-- Translation of `fetch_image(url, size)` (src/app.py:142): on any
exception a fresh placeholder of exactly `size` bearing the 이미지 없음
text; on success the decoded image is thumbnailed into the box and pasted
centered on a transparent canvas of exactly `size`. -/
def fetch_image (o : FetchOutcome) (size : Nat × Nat) : PImage :=
  match o with
  | .fail =>
    { width := size.1, height := size.2, label := some "이미지\n없음",
      contentW := size.1, contentH := size.2, offsetX := 0, offsetY := 0 }
  | .ok w h =>
    { width := size.1, height := size.2, label := none,
      contentW := (thumbnailDims w h size.1 size.2).1,
      contentH := (thumbnailDims w h size.1 size.2).2,
      offsetX := (size.1 - (thumbnailDims w h size.1 size.2).1) / 2,
      offsetY := (size.2 - (thumbnailDims w h size.1 size.2).2) / 2 }

/-- Claim C5: for every cart state and every quantity qty ≤ 0,
add_to_cart(name, price, img_url, qty) leaves the cart unchanged: it neither
creates a new entry for name nor modifies any existing entry. -/
theorem add_to_cart_nonpos_qty_noop (c : Cart) (name : String) (price : Int)
    (img_url : String) (qty : Int) (h : qty ≤ 0) :
    add_to_cart c name price img_url qty = c := by
  simp [add_to_cart, h]

/-- Witness for C5 at a concrete cart and qty = 0. -/
theorem add_to_cart_nonpos_qty_noop_witness :
    add_to_cart [("사과", { price := 3000, img_url := "u", qty := 2 })] "배" 2000 "v" 0
      = [("사과", { price := 3000, img_url := "u", qty := 2 })] :=
  add_to_cart_nonpos_qty_noop _ "배" 2000 "v" 0 (by decide)

theorem bump_fst (n : String) (q : Int) (e : String × CartEntry) :
    (bump n q e).1 = e.1 := by
  unfold bump; split <;> rfl

theorem add_to_cart_present (c : Cart) (n : String) (p : Int) (i : String) (q : Int)
    (hq : 0 < q) (hmem : c.any (fun e => e.1 == n) = true) :
    add_to_cart c n p i q = c.map (bump n q) := by
  unfold add_to_cart bump
  rw [if_neg (by omega), if_pos hmem]

theorem cart_keys_map_bump (c : Cart) (n : String) (q : Int) :
    cart_keys (c.map (bump n q)) = cart_keys c := by
  unfold cart_keys
  rw [List.map_map]
  exact List.map_congr_left (fun e _ => bump_fst n q e)

theorem cart_lookup_map_bump_same (c : Cart) (n : String) (q : Int) (e : CartEntry)
    (h : cart_lookup c n = some e) :
    cart_lookup (c.map (bump n q)) n = some { e with qty := e.qty + q } := by
  induction c with
  | nil => simp [cart_lookup] at h
  | cons x t ih =>
    by_cases hx : (x.1 == n) = true
    · simp only [cart_lookup, hx, if_true, Option.some.injEq] at h
      simp only [List.map_cons, cart_lookup, bump_fst, hx, if_true]
      simp [bump, hx, ← h]
    · rw [Bool.not_eq_true] at hx
      simp only [cart_lookup, hx, Bool.false_eq_true, if_false] at h
      simp only [List.map_cons, cart_lookup, bump_fst, hx, Bool.false_eq_true, if_false]
      exact ih h

theorem cart_lookup_map_bump_other (c : Cart) (n m : String) (q : Int)
    (hne : m ≠ n) :
    cart_lookup (c.map (bump n q)) m = cart_lookup c m := by
  induction c with
  | nil => rfl
  | cons x t ih =>
    by_cases hx : (x.1 == m) = true
    · have hxm : x.1 = m := by simpa using hx
      simp only [List.map_cons, cart_lookup, bump_fst, hx, if_true]
      have hb : (x.1 == n) = false := by
        rw [beq_eq_false_iff_ne, hxm]
        exact hne
      simp [bump, hb]
    · rw [Bool.not_eq_true] at hx
      simp only [List.map_cons, cart_lookup, bump_fst, hx, Bool.false_eq_true, if_false]
      exact ih

theorem cart_lookup_any (c : Cart) (n : String) (e : CartEntry)
    (h : cart_lookup c n = some e) : c.any (fun x => x.1 == n) = true := by
  induction c with
  | nil => simp [cart_lookup] at h
  | cons x t ih =>
    by_cases hx : (x.1 == n) = true
    · simp [hx]
    · rw [Bool.not_eq_true] at hx
      simp only [cart_lookup, hx, Bool.false_eq_true, if_false] at h
      simp [hx, ih h]

/-- Claim C9 (implicit): when the cart already holds an entry for `name`, a
later add_to_cart with that name and positive qty only increases that
entry's quantity; the later call's price and image arguments are ignored
(the entry keeps its original price and img_url), every other entry is
untouched, and the key sequence is unchanged. -/
theorem add_to_cart_existing_accumulates (c : Cart) (n : String) (e : CartEntry)
    (p2 : Int) (i2 : String) (q : Int)
    (hl : cart_lookup c n = some e) (hq : 0 < q) :
    cart_lookup (add_to_cart c n p2 i2 q) n
        = some { price := e.price, img_url := e.img_url, qty := e.qty + q }
      ∧ (∀ m, m ≠ n → cart_lookup (add_to_cart c n p2 i2 q) m = cart_lookup c m)
      ∧ cart_keys (add_to_cart c n p2 i2 q) = cart_keys c := by
  rw [add_to_cart_present c n p2 i2 q hq (cart_lookup_any c n e hl)]
  exact ⟨cart_lookup_map_bump_same c n q e hl,
    fun m hm => cart_lookup_map_bump_other c n m q hm,
    cart_keys_map_bump c n q⟩

/-- Witness for C9: a cart holding 사과 at price 3000; a second add with a
different price and image only bumps the quantity. -/
theorem add_to_cart_existing_accumulates_witness :
    cart_lookup (add_to_cart [("사과", { price := 3000, img_url := "u", qty := 2 })] "사과" 999 "w" 3) "사과"
        = some { price := 3000, img_url := "u", qty := 5 }
      ∧ (∀ m, m ≠ "사과" →
          cart_lookup (add_to_cart [("사과", { price := 3000, img_url := "u", qty := 2 })] "사과" 999 "w" 3) m
            = cart_lookup [("사과", { price := 3000, img_url := "u", qty := 2 })] m)
      ∧ cart_keys (add_to_cart [("사과", { price := 3000, img_url := "u", qty := 2 })] "사과" 999 "w" 3)
        = cart_keys [("사과", { price := 3000, img_url := "u", qty := 2 })] :=
  add_to_cart_existing_accumulates
    [("사과", { price := 3000, img_url := "u", qty := 2 })] "사과"
    { price := 3000, img_url := "u", qty := 2 } 999 "w" 3 (by decide) (by decide)

theorem cart_total_nil : cart_total [] = 0 := rfl

theorem cart_total_cons (x : String × CartEntry) (t : Cart) :
    cart_total (x :: t) = x.2.price * x.2.qty + cart_total t := by
  simp [cart_total]

theorem cart_total_append_single (c : Cart) (n : String) (e : CartEntry) :
    cart_total (c ++ [(n, e)]) = cart_total c + e.price * e.qty := by
  simp [cart_total]

theorem map_bump_of_not_mem (c : Cart) (n : String) (q : Int)
    (h : ∀ x ∈ c, x.1 ≠ n) : c.map (bump n q) = c := by
  induction c with
  | nil => rfl
  | cons x t ih =>
    have hb : (x.1 == n) = false := beq_eq_false_iff_ne.mpr (h x (by simp))
    simp only [List.map_cons, bump, hb, Bool.false_eq_true, if_false]
    rw [ih (fun y hy => h y (by simp [hy]))]

theorem cart_total_map_bump (c : Cart) (n : String) (q : Int) (e : CartEntry)
    (hnd : keysNodup c) (hl : cart_lookup c n = some e) :
    cart_total (c.map (bump n q)) = cart_total c + e.price * q := by
  induction c with
  | nil => simp [cart_lookup] at hl
  | cons x t ih =>
    have hnd2 : (x.1 :: cart_keys t).Nodup := hnd
    have hx_notin : x.1 ∉ cart_keys t := (List.nodup_cons.mp hnd2).1
    have hnd' : keysNodup t := (List.nodup_cons.mp hnd2).2
    by_cases hx : (x.1 == n) = true
    · have hxn : x.1 = n := by simpa using hx
      simp only [cart_lookup, hx, if_true, Option.some.injEq] at hl
      have hnotmem : ∀ y ∈ t, y.1 ≠ n := by
        intro y hy hcon
        exact hx_notin (hxn ▸ hcon ▸ List.mem_map_of_mem (fun z => z.1) hy)
      simp only [List.map_cons, bump, hx, if_true]
      rw [map_bump_of_not_mem t n q hnotmem, cart_total_cons, cart_total_cons, ← hl]
      ring
    · rw [Bool.not_eq_true] at hx
      simp only [cart_lookup, hx, Bool.false_eq_true, if_false] at hl
      simp only [List.map_cons, bump, hx, Bool.false_eq_true, if_false]
      rw [cart_total_cons, cart_total_cons, ih hnd' hl]
      ring

theorem any_key_iff_lookup_isSome (c : Cart) (n : String) :
    c.any (fun x => x.1 == n) = true ↔ (cart_lookup c n).isSome := by
  induction c with
  | nil => simp [cart_lookup]
  | cons x t ih =>
    by_cases hx : (x.1 == n) = true
    · simp [cart_lookup, hx]
    · rw [Bool.not_eq_true] at hx
      simp [cart_lookup, hx, ih]

theorem cart_lookup_price (c : Cart) (n : String) (p : Int) (e : CartEntry)
    (hpr : ∀ x ∈ c, x.1 = n → x.2.price = p)
    (he : cart_lookup c n = some e) : e.price = p := by
  induction c with
  | nil => simp [cart_lookup] at he
  | cons x t ih =>
    by_cases hx : (x.1 == n) = true
    · have hxn : x.1 = n := by simpa using hx
      simp only [cart_lookup, hx, if_true, Option.some.injEq] at he
      exact he ▸ hpr x (by simp) hxn
    · rw [Bool.not_eq_true] at hx
      simp only [cart_lookup, hx, Bool.false_eq_true, if_false] at he
      exact ih (fun y hy hyn => hpr y (List.mem_cons_of_mem x hy) hyn) he

theorem cart_total_add_to_cart (c : Cart) (n : String) (p : Int) (i : String) (q : Int)
    (hnd : keysNodup c) (hpr : ∀ e ∈ c, e.1 = n → e.2.price = p) :
    cart_total (add_to_cart c n p i q) = cart_total c + (if q ≤ 0 then 0 else p * q) := by
  by_cases hq : q ≤ 0
  · rw [add_to_cart_nonpos_qty_noop c n p i q hq, if_pos hq]
    ring
  · rw [if_neg hq]
    by_cases hmem : c.any (fun x => x.1 == n) = true
    · obtain ⟨e, he⟩ := Option.isSome_iff_exists.mp ((any_key_iff_lookup_isSome c n).mp hmem)
      rw [add_to_cart_present c n p i q (by omega) hmem, cart_total_map_bump c n q e hnd he,
        cart_lookup_price c n p e hpr he]
    · unfold add_to_cart
      rw [if_neg hq, if_neg hmem, cart_total_append_single]

theorem keysNodup_add_to_cart (c : Cart) (n : String) (p : Int) (i : String) (q : Int)
    (hnd : keysNodup c) : keysNodup (add_to_cart c n p i q) := by
  by_cases hq : q ≤ 0
  · rwa [add_to_cart_nonpos_qty_noop c n p i q hq]
  · by_cases hmem : c.any (fun x => x.1 == n) = true
    · rw [add_to_cart_present c n p i q (by omega) hmem]
      unfold keysNodup
      rwa [cart_keys_map_bump]
    · unfold add_to_cart
      rw [if_neg hq, if_neg hmem]
      unfold keysNodup cart_keys at hnd ⊢
      rw [List.map_append, List.nodup_append]
      refine ⟨hnd, List.nodup_singleton n, ?_⟩
      intro a ha hb
      simp only [List.map_cons, List.map_nil, List.mem_singleton] at hb
      rw [List.any_eq_true] at hmem
      push_neg at hmem
      obtain ⟨x, hx, rfl⟩ := List.mem_map.mp ha
      exact absurd (by simpa [hb] using (rfl : x.1 = x.1)) (by simpa [hb] using hmem x hx)

theorem prices_add_to_cart (pr : String → Int) (c : Cart) (n : String) (i : String) (q : Int)
    (hc : ∀ e ∈ c, e.2.price = pr e.1) :
    ∀ e ∈ add_to_cart c n (pr n) i q, e.2.price = pr e.1 := by
  by_cases hq : q ≤ 0
  · rwa [add_to_cart_nonpos_qty_noop c n (pr n) i q hq]
  · by_cases hmem : c.any (fun x => x.1 == n) = true
    · rw [add_to_cart_present c n (pr n) i q (by omega) hmem]
      intro e he
      obtain ⟨x, hx, rfl⟩ := List.mem_map.mp he
      unfold bump
      by_cases hb : (x.1 == n) = true
      · simp only [hb, if_true]
        exact hc x hx
      · rw [Bool.not_eq_true] at hb
        simp only [hb, Bool.false_eq_true, if_false]
        exact hc x hx
    · unfold add_to_cart
      rw [if_neg hq, if_neg hmem]
      intro e he
      rcases List.mem_append.mp he with he | he
      · exact hc e he
      · simp only [List.mem_singleton] at he
        subst he
        rfl

theorem cart_total_applyAdds (pr : String → Int) (l : List AddCall) :
    ∀ (c : Cart), keysNodup c → (∀ e ∈ c, e.2.price = pr e.1) →
    (∀ a ∈ l, a.price = pr a.name) →
    cart_total (applyAdds c l) = cart_total c + (l.map addGain).sum := by
  induction l with
  | nil => intro c _ _ _; simp [applyAdds]
  | cons a t ih =>
    intro c hnd hc hl
    have hpa : a.price = pr a.name := hl a (by simp)
    have step : applyAdds c (a :: t) = applyAdds (add_to_cart c a.name a.price a.img_url a.qty) t := rfl
    rw [step, ih (add_to_cart c a.name a.price a.img_url a.qty)
      (keysNodup_add_to_cart c a.name a.price a.img_url a.qty hnd)
      (hpa ▸ prices_add_to_cart pr c a.name a.img_url a.qty hc)
      (fun b hb => hl b (by simp [hb]))]
    rw [cart_total_add_to_cart c a.name a.price a.img_url a.qty hnd
      (fun e he hen => by rw [hc e he, hen, hpa])]
    simp only [List.map_cons, List.sum_cons, addGain]
    ring

/-- Claim C1 (amended): starting from the empty cart, when every add of a
given name carries that name's one unit price (pricing function pr),
cart_total after replaying the calls equals the sum of the positive
contributions price × qty of the calls — the accumulation of quantities per
distinct name — and any permutation of the call sequence yields the same
total.  (Without the shared-price condition the total is order-dependent;
see the counterexample.) -/
theorem cart_total_order_independent (pr : String → Int) (l l2 : List AddCall)
    (hl : ∀ a ∈ l, a.price = pr a.name) (hperm : l.Perm l2) :
    cart_total (applyAdds [] l) = (l.map addGain).sum
      ∧ cart_total (applyAdds [] l2) = cart_total (applyAdds [] l) := by
  have h1 : cart_total (applyAdds [] l) = (l.map addGain).sum := by
    simpa [cart_total_nil] using
      cart_total_applyAdds pr l [] (by simp [keysNodup, cart_keys]) (by simp) hl
  have hl2 : ∀ a ∈ l2, a.price = pr a.name := fun a ha => hl a (hperm.mem_iff.mpr ha)
  have h2 : cart_total (applyAdds [] l2) = (l2.map addGain).sum := by
    simpa [cart_total_nil] using
      cart_total_applyAdds pr l2 [] (by simp [keysNodup, cart_keys]) (by simp) hl2
  exact ⟨h1, by rw [h1, h2, (hperm.map addGain).sum_eq]⟩

/-- Witness for C1: two adds of distinct items at their catalog prices, in
either of the two orders, both give total 3000·2 + 2000·4 = 14000. -/
theorem cart_total_order_independent_witness :
    cart_total (applyAdds [] [⟨"Item A", 3000, "a", 2⟩, ⟨"Item B", 2000, "b", 4⟩]) =
        ([(⟨"Item A", 3000, "a", 2⟩ : AddCall), ⟨"Item B", 2000, "b", 4⟩].map addGain).sum
      ∧ cart_total (applyAdds [] [⟨"Item B", 2000, "b", 4⟩, ⟨"Item A", 3000, "a", 2⟩]) =
        cart_total (applyAdds [] [⟨"Item A", 3000, "a", 2⟩, ⟨"Item B", 2000, "b", 4⟩]) :=
  cart_total_order_independent
    (fun n => if n == "Item A" then 3000 else 2000)
    [⟨"Item A", 3000, "a", 2⟩, ⟨"Item B", 2000, "b", 4⟩]
    [⟨"Item B", 2000, "b", 4⟩, ⟨"Item A", 3000, "a", 2⟩]
    (by decide) (List.Perm.swap _ _ _)

/-- Counterexample for C1 as stated: with two adds of the same name at
different unit prices, the total depends on the call order (the first add
fixes the entry's unit price, later adds only bump qty), so cart_total is
not order-independent over all add sequences. -/
theorem cart_total_order_dependent_counterexample :
    cart_total (applyAdds [] [⟨"A", 100, "", 1⟩, ⟨"A", 200, "", 1⟩]) = 200
      ∧ cart_total (applyAdds [] [⟨"A", 200, "", 1⟩, ⟨"A", 100, "", 1⟩]) = 400
      ∧ List.Perm [(⟨"A", 100, "", 1⟩ : AddCall), ⟨"A", 200, "", 1⟩]
          [⟨"A", 200, "", 1⟩, ⟨"A", 100, "", 1⟩] :=
  ⟨by decide, by decide, List.Perm.swap _ _ _⟩

/-- Claim C2 (amended): the result content is rendered only when submitted
is true and the cart is non-empty; when submitted is false the flow
redirects to the shopping step if a mission is active and to the selection
step otherwise; when submitted is true but the cart is empty the flow
redirects to the shopping step (not the selection step). -/
theorem result_page_guard (s : AppState) :
    ((∃ rows total, result_page s = .content rows total)
        ↔ (s.submitted = true ∧ s.cart ≠ []))
      ∧ (s.submitted = false →
          result_page s = .redirect (if s.mission.isSome then .shop else .start))
      ∧ (s.submitted = true → s.cart = [] → result_page s = .redirect .shop) := by
  refine ⟨⟨?_, ?_⟩, ?_, ?_⟩
  · intro ⟨rows, total, h⟩
    unfold result_page at h
    by_cases hs : s.submitted = false
    · rw [if_pos hs] at h
      exact absurd h (by simp)
    · rw [if_neg hs] at h
      by_cases hc : s.cart.isEmpty
      · rw [if_pos hc] at h
        exact absurd h (by simp)
      · exact ⟨by simpa using hs, by simpa [List.isEmpty_iff] using hc⟩
  · intro ⟨hs, hc⟩
    refine ⟨resultItems s.cart, resultTotal s.cart, ?_⟩
    unfold result_page
    rw [if_neg (by simp [hs]), if_neg (by simpa [List.isEmpty_iff] using hc)]
  · intro hs
    unfold result_page
    rw [if_pos hs]
  · intro hs hc
    unfold result_page
    rw [if_neg (by simp [hs]), if_pos (by simp [hc])]

/-- Counterexample for C2 as stated: with submitted = true and an empty
cart, the code redirects to the shopping step, while the claim says an
empty cart redirects to the selection step. -/
theorem result_page_empty_cart_redirects_to_shop :
    result_page emptyCartResultState = .redirect .shop
      ∧ Step.shop ≠ Step.start := by
  exact ⟨rfl, by decide⟩

/-- Claim C3: in the shopping step, the submit control is disabled exactly
when the spent total exceeds the budget or is ≤ 0, and the
shopping-to-result transition happens exactly on a press of the enabled
control, which also sets the submitted flag. -/
theorem submit_disabled_iff (s : AppState) (pressed : Bool) (hstep : s.step = .shop) :
    (submit_disabled s = true ↔ (s.budget < cart_total s.cart ∨ cart_total s.cart ≤ 0))
      ∧ ((shop_submit s pressed).step = .result
          ↔ (pressed = true ∧ submit_disabled s = false))
      ∧ ((shop_submit s pressed).step = .result → (shop_submit s pressed).submitted = true) := by
  refine ⟨?_, ?_, ?_⟩
  · unfold submit_disabled
    rw [Bool.or_eq_true, decide_eq_true_iff, decide_eq_true_iff]
    omega
  · unfold shop_submit
    by_cases hp : (pressed && !submit_disabled s) = true
    · rw [if_pos hp]
      simp only [Bool.and_eq_true, Bool.not_eq_true'] at hp
      simp [hp]
    · rw [if_neg hp, hstep]
      simp only [Bool.and_eq_true, Bool.not_eq_true'] at hp
      constructor
      · intro h; exact absurd h (by simp)
      · intro h; exact absurd h hp
  · unfold shop_submit
    by_cases hp : (pressed && !submit_disabled s) = true
    · rw [if_pos hp]; intro _; rfl
    · rw [if_neg hp, hstep]
      intro h; exact absurd h (by simp)

/-- Witness for C3: a shop-step state within budget with a non-empty cart;
the enabled press transitions to the result step. -/
theorem submit_disabled_iff_witness :
    (submit_disabled withinBudgetShopState = true
        ↔ ((10000 : Int) < cart_total withinBudgetShopState.cart
            ∨ cart_total withinBudgetShopState.cart ≤ 0))
      ∧ ((shop_submit withinBudgetShopState true).step = .result
          ↔ (true = true ∧ submit_disabled withinBudgetShopState = false))
      ∧ ((shop_submit withinBudgetShopState true).step = .result
          → (shop_submit withinBudgetShopState true).submitted = true) :=
  submit_disabled_iff withinBudgetShopState true rfl

/-- Claim C7 (amended): restarting from the result screen returns the step
to selection, empties the cart and unsets the submitted flag, but leaves
the active mission, the budget and the reasoning text unchanged (they are
re-initialized only when the next mission is selected). -/
theorem result_restart_resets (s : AppState) :
    (result_restart s).step = .start
      ∧ (result_restart s).cart = []
      ∧ (result_restart s).submitted = false
      ∧ (result_restart s).mission = s.mission
      ∧ (result_restart s).budget = s.budget
      ∧ (result_restart s).reasons = s.reasons :=
  ⟨rfl, rfl, rfl, rfl, rfl, rfl⟩

/-- Counterexample for C7 as stated: restarting from a result state with an
active mission, budget and reasoning text does not clear them, so the
session is not reset to its initial values. -/
theorem result_restart_not_full_reset :
    (result_restart finishedResultState).mission = some "🍛 카레 만들기"
      ∧ some "🍛 카레 만들기" ≠ init_state.mission
      ∧ (result_restart finishedResultState).budget = 20000
      ∧ (20000 : Int) ≠ init_state.budget
      ∧ (result_restart finishedResultState).reasons = "카레 재료"
      ∧ "카레 재료" ≠ init_state.reasons := by
  refine ⟨rfl, by decide, rfl, by decide, rfl, by decide⟩

theorem charListLeb_total (a : List Char) : ∀ b, charListLeb a b = true ∨ charListLeb b a = true := by
  induction a with
  | nil => intro b; left; rfl
  | cons c s ih =>
    intro b
    cases b with
    | nil => right; rfl
    | cons d t =>
      by_cases h1 : c.toNat < d.toNat
      · left; simp [charListLeb, h1]
      · by_cases h2 : d.toNat < c.toNat
        · right; simp [charListLeb, h2]
        · rcases ih t with h | h
          · left; simp [charListLeb, h1, h2, h]
          · right; simp [charListLeb, h1, h2, h]

theorem charListLeb_trans (a : List Char) :
    ∀ b c, charListLeb a b = true → charListLeb b c = true → charListLeb a c = true := by
  induction a with
  | nil => intro b c _ _; rfl
  | cons x s ih =>
    intro b c hab hbc
    cases b with
    | nil => simp [charListLeb] at hab
    | cons y t =>
      cases c with
      | nil => simp [charListLeb] at hbc
      | cons z u =>
        simp only [charListLeb] at hab hbc ⊢
        rcases Nat.lt_trichotomy x.toNat y.toNat with h1 | h1 | h1
        · rcases Nat.lt_trichotomy y.toNat z.toNat with h2 | h2 | h2
          · rw [if_pos (show x.toNat < z.toNat by omega)]
          · rw [if_pos (show x.toNat < z.toNat by omega)]
          · rw [if_neg (by omega), if_pos h2] at hbc
            exact absurd hbc (by decide)
        · rcases Nat.lt_trichotomy y.toNat z.toNat with h2 | h2 | h2
          · rw [if_pos (show x.toNat < z.toNat by omega)]
          · rw [if_neg (by omega), if_neg (by omega)] at hab hbc
            rw [if_neg (by omega), if_neg (by omega)]
            exact ih t u hab hbc
          · rw [if_neg (by omega), if_pos h2] at hbc
            exact absurd hbc (by decide)
        · rw [if_neg (by omega), if_pos h1] at hab
          exact absurd hab (by decide)

/-- Claim C10 (amended): for every cart, the rows of the generated report
image — the `df_items` rows after `.sort_values("품명")`, drawn in list
order by make_result_image — are a permutation of the cart's rows ordered
ascending by item name, independent of insertion order; the on-screen table
of the result page, however, is rendered from the raw cart in insertion
order (src/app.py:535), not sorted. -/
theorem resultItems_sorted (c : Cart) :
    (resultItems c).Perm (cartRows c) ∧ List.Sorted rowLe (resultItems c) := by
  haveI : IsTotal ResultRow rowLe :=
    ⟨fun a b => charListLeb_total a.name.data b.name.data⟩
  haveI : IsTrans ResultRow rowLe :=
    ⟨fun a b d hab hbd => charListLeb_trans a.name.data b.name.data d.name.data hab hbd⟩
  exact ⟨List.perm_insertionSort rowLe (cartRows c),
    List.sorted_insertionSort rowLe (cartRows c)⟩

/-- Counterexample for C10 as stated: the result page's visible table rows
follow cart insertion order ["banana", "apple"], which is not ascending by
name; only the report image's rows are sorted to ["apple", "banana"]. -/
theorem result_page_table_unsorted_counterexample :
    (cartRows unsortedDemoCart).map (fun r => r.name) = ["banana", "apple"]
      ∧ (resultItems unsortedDemoCart).map (fun r => r.name) = ["apple", "banana"]
      ∧ ¬ List.Sorted rowLe (cartRows unsortedDemoCart) := by
  refine ⟨by decide, by decide, ?_⟩
  intro hs
  have hrows : cartRows unsortedDemoCart =
      [{ name := "banana", qty := 1, price := 1000, subtotal := 1000, img_url := "" },
       { name := "apple", qty := 1, price := 2000, subtotal := 2000, img_url := "" }] := by
    decide
  rw [hrows, List.sorted_cons] at hs
  have := hs.1 _ (List.mem_singleton.mpr rfl)
  exact absurd this (by decide)

/-- Claim C8: for every spent total and budget, the report footer shows the
budget, the spent amount, and the remaining balance budget − total, each
through format_won (integer with thousands separators and the 원 suffix);
the remaining-balance color is green exactly when the remainder is ≥ 0 and
red exactly when it is negative, and the two colors differ.  The spec's
example scenario (budget 15000, spent 14000) renders 15,000원 / 14,000원 /
1,000원 in the non-negative color. -/
theorem make_result_image_footer_correct (total budget : Int) :
    (make_result_image_footer total budget).budget_text = "주어진 금액: " ++ format_won budget
      ∧ (make_result_image_footer total budget).spent_text = "총 사용 금액: " ++ format_won total
      ∧ (make_result_image_footer total budget).remain_text = "잔액: " ++ format_won (budget - total)
      ∧ ((make_result_image_footer total budget).remain_color = greenFill ↔ 0 ≤ budget - total)
      ∧ ((make_result_image_footer total budget).remain_color = redFill ↔ budget - total < 0)
      ∧ greenFill ≠ redFill
      ∧ make_result_image_footer 14000 15000
        = { budget_text := "주어진 금액: 15,000원", spent_text := "총 사용 금액: 14,000원",
            remain_text := "잔액: 1,000원", remain_color := greenFill } := by
  have hc : (make_result_image_footer total budget).remain_color
      = if budget - total ≥ 0 then greenFill else redFill := rfl
  refine ⟨rfl, rfl, rfl, ?_, ?_, by decide, by decide⟩
  · rw [hc]
    by_cases h : budget - total ≥ 0
    · rw [if_pos h]
      exact ⟨fun _ => h, fun _ => rfl⟩
    · rw [if_neg h]
      exact ⟨fun hg => absurd hg (by decide), fun hg => absurd hg h⟩
  · rw [hc]
    by_cases h : budget - total ≥ 0
    · rw [if_pos h]
      exact ⟨fun hg => absurd hg (by decide), fun hg => absurd h (by omega)⟩
    · rw [if_neg h]
      exact ⟨fun _ => by omega, fun _ => rfl⟩

theorem splitSign_of_digit (cs : List Char) (hne : cs ≠ [])
    (hd : ∀ c ∈ cs, c.isDigit = true) : splitSign cs = (false, cs) := by
  cases cs with
  | nil => exact absurd rfl hne
  | cons c t =>
    have hc : c.isDigit = true := hd c (by simp)
    have h1 : c ≠ '-' := fun he => by rw [he] at hc; exact absurd hc (by decide)
    have h2 : c ≠ '+' := fun he => by rw [he] at hc; exact absurd hc (by decide)
    unfold splitSign
    simp only [List.head?_cons, List.tail_cons, Option.some.injEq]
    rw [if_neg h1, if_neg h2]

theorem parseUnsignedTrunc_all_digits (cs : List Char) (hne : cs ≠ [])
    (hd : ∀ c ∈ cs, c.isDigit = true) :
    parseUnsignedTrunc cs = some (digitsVal cs) := by
  have htake : cs.takeWhile Char.isDigit = cs := List.takeWhile_eq_self_iff.mpr hd
  have hdrop : cs.dropWhile Char.isDigit = [] := List.dropWhile_eq_nil_iff.mpr hd
  unfold parseUnsignedTrunc
  rw [htake, hdrop]
  simp [hne]

theorem parseUnsignedTrunc_no_digit (cs : List Char)
    (hd : ∀ c ∈ cs, c.isDigit = false) : parseUnsignedTrunc cs = none := by
  cases cs with
  | nil => rfl
  | cons c t =>
    have hc : ¬ c.isDigit = true := by rw [hd c (by simp)]; exact Bool.false_ne_true
    have htake : (c :: t).takeWhile Char.isDigit = [] := List.takeWhile_cons_of_neg hc
    have hdrop : (c :: t).dropWhile Char.isDigit = c :: t := List.dropWhile_cons_of_neg hc
    unfold parseUnsignedTrunc
    rw [htake, hdrop]
    rw [if_neg (by simp)]
    simp only [List.head?_cons, List.tail_cons, Option.some.injEq]
    cases t with
    | nil =>
      by_cases hdot : c = '.'
      · subst hdot
        simp
      · rw [if_neg (fun hcon => hdot hcon.1)]
    | cons d u =>
      have hd2 : ¬ d.isDigit = true := by
        rw [hd d (by simp)]; exact Bool.false_ne_true
      have hdropd : (d :: u).dropWhile Char.isDigit = d :: u :=
        List.dropWhile_cons_of_neg hd2
      rw [if_neg (fun hcon => by rw [hdropd] at hcon; exact absurd hcon.2 (by simp))]

theorem mem_of_mem_stripWS (c : Char) (cs : List Char) (h : c ∈ stripWS cs) : c ∈ cs := by
  unfold stripWS at h
  rw [List.mem_reverse] at h
  have h2 := (List.dropWhile_sublist Char.isWhitespace).mem h
  rw [List.mem_reverse] at h2
  exact (List.dropWhile_sublist Char.isWhitespace).mem h2

theorem mem_of_mem_dropDecor (c : Char) (cs : List Char) (h : c ∈ dropDecor cs) : c ∈ cs := by
  unfold dropDecor at h
  exact (List.mem_filter.mp (List.mem_filter.mp h).1).1

theorem isDigit_false_of_pyDigit_false (c : Char) (h : pyDigit c = false) :
    c.isDigit = false := by
  cases hb : c.isDigit with
  | false => rfl
  | true =>
    unfold pyDigit at h
    rw [hb] at h
    simp at h

/-- Claim C4 (amended): after stripping commas, the 원 suffix and
surrounding whitespace, a cell whose remainder is a pure digit string (of
realistic length, ≤ 15 digits, where the float detour is exact) parses to
that string's integer value; a string cell containing no decimal digit at
all — Unicode decimal digits included, via pyDigit — and a missing (NaN)
cell, parse to 0.  Decoration other than commas and 원 — for instance
other currency symbols — is not discarded and makes the parse fail to 0
(see the counterexample). -/
theorem parse_price_amended :
    (∀ (s : String) (ds : List Char),
        stripWS (dropDecor s.data) = ds → ds ≠ [] → ds.length ≤ 15 →
        (∀ c ∈ ds, c.isDigit = true) →
        _parse_price (.str s) = (digitsVal ds : Int))
      ∧ (∀ s : String, (∀ c ∈ s.data, pyDigit c = false) → _parse_price (.str s) = 0)
      ∧ _parse_price .nan = 0 := by
  refine ⟨?_, ?_, rfl⟩
  · intro s ds hstrip hne hlen hd
    simp only [_parse_price]
    rw [hstrip]
    unfold parseFloatTrunc
    rw [splitSign_of_digit ds hne hd]
    simp [parseUnsignedTrunc_all_digits ds hne hd]
  · intro s hs
    have hs2 : ∀ c ∈ s.data, c.isDigit = false :=
      fun c hc => isDigit_false_of_pyDigit_false c (hs c hc)
    have hnod : ∀ c ∈ stripWS (dropDecor s.data), c.isDigit = false :=
      fun c hc => hs2 c (mem_of_mem_dropDecor c s.data (mem_of_mem_stripWS c _ hc))
    simp only [_parse_price]
    unfold parseFloatTrunc
    rcases hcs : stripWS (dropDecor s.data) with _ | ⟨c, t⟩
    · rfl
    · rw [hcs] at hnod
      unfold splitSign
      simp only [List.head?_cons, List.tail_cons, Option.some.injEq]
      by_cases h1 : c = '-'
      · rw [if_pos h1]
        rw [parseUnsignedTrunc_no_digit t (fun d hd2 => hnod d (List.mem_cons_of_mem c hd2))]
        rfl
      · rw [if_neg h1]
        by_cases h2 : c = '+'
        · rw [if_pos h2]
          rw [parseUnsignedTrunc_no_digit t (fun d hd2 => hnod d (List.mem_cons_of_mem c hd2))]
          rfl
        · rw [if_neg h2]
          rw [parseUnsignedTrunc_no_digit (c :: t) hnod]
          rfl

/-- Witness for C4 (amended): "1,000원" parses to 1000; "무료", free of
decimal digits in the pyDigit sense, and a missing cell parse to 0. -/
theorem parse_price_amended_witness :
    _parse_price (.str "1,000원") = (digitsVal ['1', '0', '0', '0'] : Int)
      ∧ _parse_price (.str "무료") = 0
      ∧ (digitsVal ['1', '0', '0', '0'] : Int) = 1000 :=
  ⟨parse_price_amended.1 "1,000원" ['1', '0', '0', '0'] (by decide) (by decide)
      (by decide) (by decide),
    parse_price_amended.2.1 "무료" (by decide),
    by decide⟩

/-- Counterexample for C4 as stated: "$100" contains digits mixed with a
currency symbol, but parsing returns 0, not the embedded magnitude 100 —
only the comma and 원 decorations are discarded. -/
theorem parse_price_dollar_counterexample :
    ("$100".data.any Char.isDigit) = true
      ∧ _parse_price (.str "$100") = 0
      ∧ (0 : Int) ≠ 100 :=
  ⟨by decide, by decide, by decide⟩

theorem thumbnailDims_le (w h tw th : Nat) (hw : 0 < w) (hh : 0 < h)
    (htw : 0 < tw) (hth : 0 < th) :
    (thumbnailDims w h tw th).1 ≤ tw ∧ (thumbnailDims w h tw th).2 ≤ th := by
  unfold thumbnailDims round_half
  by_cases hfit : w ≤ tw ∧ h ≤ th
  · rw [if_pos hfit]
    exact hfit
  · rw [if_neg hfit]
    by_cases hcmp : tw * h ≥ th * w
    · rw [if_pos hcmp]
      refine ⟨?_, le_refl th⟩
      have hhpos : 0 < 2 * h := by omega
      have h2 : th * w ≤ tw * h := hcmp
      have hlt : 2 * (th * w) + h < (tw + 1) * (2 * h) := by nlinarith
      have hdiv := (Nat.div_lt_iff_lt_mul hhpos).mpr hlt
      exact Nat.max_le.mpr ⟨htw, by omega⟩
    · rw [if_neg hcmp]
      refine ⟨le_refl tw, ?_⟩
      have hwpos : 0 < 2 * w := by omega
      have h2 : tw * h ≤ th * w := le_of_lt (lt_of_not_ge hcmp)
      have hlt : 2 * (tw * h) + w < (th + 1) * (2 * w) := by nlinarith
      have hdiv := (Nat.div_lt_iff_lt_mul hwpos).mpr hlt
      exact Nat.max_le.mpr ⟨hth, by omega⟩

/-- Claim C6: for every fetch outcome and positive target size, fetch_image
returns an image whose canvas is exactly the target size; exactly the
failure outcomes carry the "no image" label (the exception never escapes —
the model is a total function of the outcome); and on success the content
is downscaled to fit the box preserving aspect ratio and pasted centered. -/
theorem fetch_image_size_and_placeholder (o : FetchOutcome) (tw th : Nat)
    (htw : 0 < tw) (hth : 0 < th) :
    (fetch_image o (tw, th)).width = tw
      ∧ (fetch_image o (tw, th)).height = th
      ∧ ((fetch_image o (tw, th)).label = some "이미지\n없음" ↔ o = .fail)
      ∧ (∀ w h, o = .ok w h → 0 < w → 0 < h →
          (fetch_image o (tw, th)).contentW ≤ tw
            ∧ (fetch_image o (tw, th)).contentH ≤ th
            ∧ (fetch_image o (tw, th)).offsetX
                = (tw - (fetch_image o (tw, th)).contentW) / 2
            ∧ (fetch_image o (tw, th)).offsetY
                = (th - (fetch_image o (tw, th)).contentH) / 2) := by
  cases o with
  | fail =>
    refine ⟨rfl, rfl, ⟨fun _ => rfl, fun _ => rfl⟩, ?_⟩
    intro w h hok
    exact FetchOutcome.noConfusion hok
  | ok w0 h0 =>
    refine ⟨rfl, rfl, ⟨fun hl => Option.noConfusion hl, fun hf => FetchOutcome.noConfusion hf⟩, ?_⟩
    intro w h hok hw hh
    have hw0 : w0 = w := by injection hok
    have hh0 : h0 = h := by injection hok
    subst hw0
    subst hh0
    obtain ⟨h1, h2⟩ := thumbnailDims_le w0 h0 tw th hw hh htw hth
    exact ⟨h1, h2, rfl, rfl⟩

/-- Witness for C6 at target size 120×120 with a successful 300×200 decode
and with a failure. -/
theorem fetch_image_size_and_placeholder_witness :
    ((fetch_image (.ok 300 200) (120, 120)).width = 120
        ∧ (fetch_image (.ok 300 200) (120, 120)).height = 120
        ∧ ((fetch_image (.ok 300 200) (120, 120)).label = some "이미지\n없음"
            ↔ (FetchOutcome.ok 300 200) = .fail)
        ∧ (∀ w h, (FetchOutcome.ok 300 200) = .ok w h → 0 < w → 0 < h →
            (fetch_image (.ok 300 200) (120, 120)).contentW ≤ 120
              ∧ (fetch_image (.ok 300 200) (120, 120)).contentH ≤ 120
              ∧ (fetch_image (.ok 300 200) (120, 120)).offsetX
                  = (120 - (fetch_image (.ok 300 200) (120, 120)).contentW) / 2
              ∧ (fetch_image (.ok 300 200) (120, 120)).offsetY
                  = (120 - (fetch_image (.ok 300 200) (120, 120)).contentH) / 2))
      ∧ (fetch_image .fail (120, 120)).width = 120
      ∧ (fetch_image .fail (120, 120)).label = some "이미지\n없음" :=
  ⟨fetch_image_size_and_placeholder (.ok 300 200) 120 120 (by decide) (by decide),
    rfl, rfl⟩

/-- Witness for C2 (amended): a submitted-but-empty state redirects to
shop, a finished state renders content, and the fresh session (not
submitted, no mission) redirects to selection. -/
theorem result_page_guard_witness :
    result_page emptyCartResultState = .redirect .shop
      ∧ (∃ rows total, result_page finishedResultState = .content rows total)
      ∧ result_page init_state = .redirect .start :=
  ⟨(result_page_guard emptyCartResultState).2.2 rfl rfl,
    (result_page_guard finishedResultState).1.mpr ⟨rfl, by decide⟩,
    (result_page_guard init_state).2.1 rfl⟩
